import Mathlib

/-
Verification of DupeChecker.py: a scanner that reads CSV files (header on
physical line 3, data from physical line 4), collects every occurrence of a
(#Channel, #Cue) integer key pair into a multimap, and reports every pair
occurring more than once together with all its (file, line) locations.

The embedding below mirrors the source function check_duplicate_channel_cue
and the argparse entry point. Dynamic aspects of the host language are made
explicit: a cell of a key column is either missing (pandas NaN), an
integer-convertible value, or a value on which int() raises ValueError; a
row iteration can be interrupted by an unexpected exception, which the
source catches at the per-file try/except, keeping whatever was already
appended to the multimap.
-/

namespace DupeChecker

/-- A cell of one of the two key columns, as seen by the row loop after
pandas parsing: `missing` models a NaN value (pd.isna is true), `intVal n`
a value that int() converts to the integer n (e.g. "3" or "3.0"), and
`badVal s` a value on which int() raises ValueError (e.g. "abc"). -/
inductive Cell where
  | missing : Cell
  | intVal : Int → Cell
  | badVal : String → Cell
deriving DecidableEq, Repr

/-- A data row: an association of column names to cell values. -/
abbrev Row := List (String × Cell)

/-- Look up the cell of column `c` in row `r` (a column absent from the row
reads as missing; after the required-column check both key columns are
present in every row of a processed file). -/
def getCell (r : Row) (c : String) : Cell :=
  match r.find? (fun p => p.1 == c) with
  | some p => p.2
  | none => Cell.missing

/-- One event during iteration of df.iterrows(): either the next data row,
or an unexpected exception raised while processing the file, which the
source catches in the per-file handler (src line 68). -/
inductive RowEvent where
  | row : Row → RowEvent
  | raiseExc : String → RowEvent
deriving DecidableEq, Repr

/-- A successfully parsed input file: its path, the column names read from
physical line 3 (header=2), and the sequence of iteration events for the
data region, whose 0-based index starts at physical line 4. -/
structure DataFile where
  path : String
  columns : List String
  events : List RowEvent
deriving DecidableEq, Repr

/-- The outcome of attempting to open and parse one input path, one
constructor per branch in the source: os.path.exists false (src line 29),
pandas EmptyDataError (line 64), pandas ParserError (line 66), any other
exception raised by read_csv itself (line 68), or a parsed DataFrame. -/
inductive FileInput where
  | missingFile : String → FileInput
  | emptyFile : String → FileInput
  | parseErr : String → FileInput
  | readExc : String → String → FileInput
  | ok : DataFile → FileInput
deriving DecidableEq, Repr

/-- A diagnostic message printed during processing, one constructor per
print statement in the source (lines 30, 40, 62, 65, 67, 69). The
bad-row warning carries the number the source interpolates, idx + 3. -/
inductive Msg where
  | errFileNotFound : String → Msg
  | warnMissingColumns : String → Msg
  | warnBadRow : Nat → String → Msg
  | warnEmptyFile : String → Msg
  | errParse : String → Msg
  | unexpectedErr : String → String → Msg
deriving DecidableEq, Repr

/-- A (channel, cue) key pair. -/
abbrev Pair := Int × Int

/-- An occurrence: the file path and the stored csv_line_number. -/
abbrev Occurrence := String × Nat

/-- The pair_origins multimap: a (channel, cue) pair mapped to the list of
all its occurrences, in insertion order (Python dicts preserve insertion
order; defaultdict(list) creates an entry on first append). -/
abbrev Index := List (Pair × List Occurrence)

/-- The required column names (src line 20). -/
def required_columns : List String := ["#Channel", "#Cue"]

/-- The line number stored for the data row with 0-based index idx
(src line 56): csv_line_number = idx + 3. -/
def csv_line_number (idx : Nat) : Nat := idx + 3

/-- The line number printed in the duplicate report for a stored
occurrence (src line 86): the stored value plus one. -/
def displayedLine (stored : Nat) : Nat := stored + 1

/-- The real physical 1-based line of the data row with 0-based data
index idx: lines 1 and 2 are preamble, line 3 the header (header=2,
src line 36), so data row idx sits on physical line idx + 4. -/
def physicalLine (idx : Nat) : Nat := idx + 4

/-- pair_origins[pair].append(occ) with defaultdict(list) semantics: append
to the existing entry for the pair, or create a new entry at the end of the
insertion order holding just this occurrence (src lines 17 and 59). -/
def appendOcc (idx : Index) (pr : Pair) (o : Occurrence) : Index :=
  match idx with
  | [] => [(pr, [o])]
  | (q, l) :: rest =>
      if q = pr then (q, l ++ [o]) :: rest
      else (q, l) :: appendOcc rest pr o

/-- The processing state: the multimap built so far and the diagnostics
printed so far. -/
abbrev State := Index × List Msg

/-- The body of the row loop (src lines 47 to 62): skip the row silently if
either key cell is missing; otherwise convert both to integers and append
the occurrence, or print a bad-row warning if int() raises ValueError on
either cell. -/
def processRow (path : String) (idx : Nat) (r : Row) (st : State) : State :=
  if getCell r "#Channel" = Cell.missing ∨ getCell r "#Cue" = Cell.missing then
    st
  else
    match getCell r "#Channel", getCell r "#Cue" with
    | Cell.intVal ch, Cell.intVal cue =>
        (appendOcc st.1 (ch, cue) (path, csv_line_number idx), st.2)
    | _, _ => (st.1, st.2 ++ [Msg.warnBadRow (csv_line_number idx) path])

/-- The row loop over the data region (src line 46), inside the per-file
try block: an unexpected exception raised during iteration aborts the loop
and is caught by the handler at src line 68, which prints the
unexpected-error message; occurrences already appended are retained. -/
def processEvents (path : String) (idx : Nat) (evs : List RowEvent) (st : State) : State :=
  match evs with
  | [] => st
  | RowEvent.row r :: rest => processEvents path (idx + 1) rest (processRow path idx r st)
  | RowEvent.raiseExc m :: _ => (st.1, st.2 ++ [Msg.unexpectedErr path m])

/-- Processing of one input path (src lines 28 to 69): each failure branch
prints its diagnostic and leaves the multimap untouched; a parsed file is
first checked for both required columns (src line 39) and is skipped whole
with a warning if either is absent, otherwise its rows are iterated. -/
def processFile (fi : FileInput) (st : State) : State :=
  match fi with
  | FileInput.missingFile p => (st.1, st.2 ++ [Msg.errFileNotFound p])
  | FileInput.emptyFile p => (st.1, st.2 ++ [Msg.warnEmptyFile p])
  | FileInput.parseErr p => (st.1, st.2 ++ [Msg.errParse p])
  | FileInput.readExc p m => (st.1, st.2 ++ [Msg.unexpectedErr p m])
  | FileInput.ok f =>
      if required_columns.all (fun c => f.columns.contains c) then
        processEvents f.path 0 f.events st
      else
        (st.1, st.2 ++ [Msg.warnMissingColumns f.path])

/-- The top-level loop over all input paths, in the order given. -/
def processFiles (fis : List FileInput) (st : State) : State :=
  match fis with
  | [] => st
  | fi :: rest => processFiles rest (processFile fi st)

/-- The multimap after processing a whole input list from the empty state. -/
def runIndex (fis : List FileInput) : Index := (processFiles fis ([], [])).1

/-- The diagnostics printed while processing a whole input list. -/
def runMsgs (fis : List FileInput) : List Msg := (processFiles fis ([], [])).2

/-- One DUPLICATE PAIR FOUND block of the report (src lines 80 to 86): the
two integers of the pair, the total occurrence count, and every location
with its displayed line number. -/
structure DupEntry where
  channel : Int
  cue : Int
  totalOccurrences : Nat
  locations : List (String × Nat)
deriving DecidableEq, Repr

/-- The report loop (src lines 76 to 86): every tracked pair whose
occurrence list has more than one element produces a block listing the
count and each location, displaying line_number + 1. -/
def duplicateReport (idx : Index) : List DupEntry :=
  (idx.filter (fun e => decide (e.2.length > 1))).map
    (fun e =>
      { channel := e.1.1
        cue := e.1.2
        totalOccurrences := e.2.length
        locations := e.2.map (fun o => (o.1, displayedLine o.2)) })

/-- The duplicates_found flag after the report loop (src lines 19 and 78):
true exactly when some tracked pair has more than one occurrence. -/
def duplicates_found (idx : Index) : Bool :=
  idx.any (fun e => decide (e.2.length > 1))

/-- The closing success message (src line 91). -/
def successMessage : String :=
  "SUCCESS: No duplicate (#Channel, #Cue) pairs were found across any of the files."

/-- The closing completion message (src line 93, quotes elided). -/
def completedMessage : String :=
  "COMPLETED: Review the DUPLICATE PAIR FOUND reports above for all conflicting locations."

/-- The single closing line (src lines 90 to 93): the success message when
no duplicate was found, the completion message otherwise. -/
def closingMessage (idx : Index) : String :=
  if duplicates_found idx then completedMessage else successMessage

/-- The usage rejection printed by argparse when no file argument is
given. -/
def usageMessage : String :=
  "usage: DupeChecker.py [-h] FILE [FILE ...]"

/-- The argument parser (src lines 96 to 107): nargs of one-or-more makes
an empty argument list a fatal usage error before any processing; any
non-empty list is accepted as the file list. -/
def parseArgs (argv : List String) : Except String (List String) :=
  match argv with
  | [] => Except.error usageMessage
  | a :: as => Except.ok (a :: as)

/-- The key pair a row contributes, when it does: some (channel, cue) when
both key cells are integer-convertible, none when either is missing or
fails conversion. -/
def rowKeyPair (r : Row) : Option Pair :=
  match getCell r "#Channel", getCell r "#Cue" with
  | Cell.intVal ch, Cell.intVal cue => some (ch, cue)
  | _, _ => none

/-- The occurrences of pair p contributed by a data region starting at
index idx: one per row with valid keys equal to p, stopping at the first
unexpected exception. -/
def eventsOccs (path : String) (idx : Nat) (evs : List RowEvent) (p : Pair) : List Occurrence :=
  match evs with
  | [] => []
  | RowEvent.row r :: rest =>
      (if rowKeyPair r = some p then [(path, csv_line_number idx)] else [])
        ++ eventsOccs path (idx + 1) rest p
  | RowEvent.raiseExc _ :: _ => []

/-- The occurrences of pair p contributed by one input: none unless the
file parses and has both required columns. -/
def fileOccs (fi : FileInput) (p : Pair) : List Occurrence :=
  match fi with
  | FileInput.ok f =>
      if required_columns.all (fun c => f.columns.contains c) then
        eventsOccs f.path 0 f.events p
      else []
  | _ => []

/-- All occurrences of pair p across an input list, in processing order. -/
def totalOccs (fis : List FileInput) (p : Pair) : List Occurrence :=
  (fis.map (fun fi => fileOccs fi p)).flatten

/-- The number of rows with valid keys equal to p in a data region,
stopping at the first unexpected exception. -/
def eventsValidCount (evs : List RowEvent) (p : Pair) : Nat :=
  match evs with
  | [] => 0
  | RowEvent.row r :: rest =>
      (if rowKeyPair r = some p then 1 else 0) + eventsValidCount rest p
  | RowEvent.raiseExc _ :: _ => 0

/-- The number of rows with valid keys equal to p contributed by one
input. -/
def fileValidCount (fi : FileInput) (p : Pair) : Nat :=
  match fi with
  | FileInput.ok f =>
      if required_columns.all (fun c => f.columns.contains c) then
        eventsValidCount f.events p
      else 0
  | _ => 0

/-- The number of rows with valid keys equal to p across an input list. -/
def totalValidCount (fis : List FileInput) (p : Pair) : Nat :=
  (fis.map (fun fi => fileValidCount fi p)).sum

/-- The keys of the multimap, in insertion order. -/
def keys (idx : Index) : List Pair := idx.map (fun e => e.1)

/-- The occurrence list stored for pair p: the list of the first entry
with key p, empty when p has no entry. -/
def occList (idx : Index) (p : Pair) : List Occurrence :=
  match idx with
  | [] => []
  | e :: rest => if e.1 = p then e.2 else occList rest p

/-- A row with integer channel c and cue q in both key columns. -/
def rowCC (c q : Int) : Row := [("#Channel", Cell.intVal c), ("#Cue", Cell.intVal q)]

/-- The scenario file A: header on physical line 3, data rows (1,1) at
physical line 4, (2,2) at physical line 5 and (1,1) at physical line 6. -/
def fileA : DataFile :=
  { path := "A.csv"
    columns := ["#Channel", "#Cue"]
    events := [RowEvent.row (rowCC 1 1), RowEvent.row (rowCC 2 2), RowEvent.row (rowCC 1 1)] }

/-- A file whose single data row, at physical line 4, has a #Channel value
on which integer conversion fails. -/
def fileBad : DataFile :=
  { path := "bad.csv"
    columns := ["#Channel", "#Cue"]
    events := [RowEvent.row [("#Channel", Cell.badVal "abc"), ("#Cue", Cell.intVal 1)]] }

/-- A file whose single data row, at physical line 4, has a missing
#Channel value. -/
def fileMissingKey : DataFile :=
  { path := "m.csv"
    columns := ["#Channel", "#Cue"]
    events := [RowEvent.row [("#Channel", Cell.missing), ("#Cue", Cell.intVal 1)]] }

/-- The diagnostic an input produces when it fails before row iteration:
one per failure branch, none for a parsed file. -/
def fileDiag : FileInput → Option Msg
  | FileInput.missingFile p => some (Msg.errFileNotFound p)
  | FileInput.emptyFile p => some (Msg.warnEmptyFile p)
  | FileInput.parseErr p => some (Msg.errParse p)
  | FileInput.readExc p m => some (Msg.unexpectedErr p m)
  | FileInput.ok _ => none

lemma occList_appendOcc_self (idx : Index) (p : Pair) (o : Occurrence) :
    occList (appendOcc idx p o) p = occList idx p ++ [o] := by
  induction idx with
  | nil => simp [appendOcc, occList]
  | cons e rest ih =>
      obtain ⟨q, l⟩ := e
      by_cases hq : q = p
      · simp [appendOcc, occList, hq]
      · simp [appendOcc, occList, hq, ih]

lemma occList_appendOcc_other (idx : Index) (pr p : Pair) (o : Occurrence)
    (hne : pr ≠ p) : occList (appendOcc idx pr o) p = occList idx p := by
  induction idx with
  | nil => simp [appendOcc, occList, hne]
  | cons e rest ih =>
      obtain ⟨q, l⟩ := e
      by_cases hq : q = pr
      · simp [appendOcc, occList, hq, hne]
      · by_cases hp : q = p
        · have hpn : ¬ p = pr := fun h => hne h.symm
          simp [appendOcc, occList, hq, hp, hpn]
        · simp [appendOcc, occList, hq, hp, ih]

lemma occList_appendOcc (idx : Index) (pr p : Pair) (o : Occurrence) :
    occList (appendOcc idx pr o) p =
      if pr = p then occList idx p ++ [o] else occList idx p := by
  by_cases h : pr = p
  · subst h
    simp [occList_appendOcc_self]
  · simp [occList_appendOcc_other idx pr p o h, h]

lemma occList_processRow (path : String) (i : Nat) (r : Row) (st : State) (p : Pair) :
    occList (processRow path i r st).1 p =
      occList st.1 p ++
        (if rowKeyPair r = some p then [(path, csv_line_number i)] else []) := by
  unfold processRow rowKeyPair
  rcases h1 : getCell r "#Channel" with _ | ch | s1 <;>
    rcases h2 : getCell r "#Cue" with _ | cue | s2 <;>
      simp [h1, h2, occList_appendOcc]
  by_cases hp : (ch, cue) = p
  · simp [hp]
  · simp [hp]

lemma occList_processEvents (path : String) (p : Pair) :
    ∀ (evs : List RowEvent) (i : Nat) (st : State),
      occList (processEvents path i evs st).1 p =
        occList st.1 p ++ eventsOccs path i evs p := by
  intro evs
  induction evs with
  | nil => intro i st; simp [processEvents, eventsOccs]
  | cons ev rest ih =>
      intro i st
      cases ev with
      | row r =>
          simp [processEvents, eventsOccs, ih, occList_processRow, List.append_assoc]
      | raiseExc m =>
          simp [processEvents, eventsOccs]

lemma processFile_ok_true (f : DataFile) (st : State)
    (h : required_columns.all (fun c => f.columns.contains c) = true) :
    processFile (FileInput.ok f) st = processEvents f.path 0 f.events st := by
  simp only [processFile, h, if_true]

lemma processFile_ok_false (f : DataFile) (st : State)
    (h : required_columns.all (fun c => f.columns.contains c) = false) :
    processFile (FileInput.ok f) st = (st.1, st.2 ++ [Msg.warnMissingColumns f.path]) := by
  simp only [processFile, h, Bool.false_eq_true, if_false]

lemma fileOccs_ok_true (f : DataFile) (p : Pair)
    (h : required_columns.all (fun c => f.columns.contains c) = true) :
    fileOccs (FileInput.ok f) p = eventsOccs f.path 0 f.events p := by
  simp only [fileOccs, h, if_true]

lemma fileOccs_ok_false (f : DataFile) (p : Pair)
    (h : required_columns.all (fun c => f.columns.contains c) = false) :
    fileOccs (FileInput.ok f) p = [] := by
  simp only [fileOccs, h, Bool.false_eq_true, if_false]

lemma fileValidCount_ok_true (f : DataFile) (p : Pair)
    (h : required_columns.all (fun c => f.columns.contains c) = true) :
    fileValidCount (FileInput.ok f) p = eventsValidCount f.events p := by
  simp only [fileValidCount, h, if_true]

lemma fileValidCount_ok_false (f : DataFile) (p : Pair)
    (h : required_columns.all (fun c => f.columns.contains c) = false) :
    fileValidCount (FileInput.ok f) p = 0 := by
  simp only [fileValidCount, h, Bool.false_eq_true, if_false]

lemma occList_processFile (fi : FileInput) (st : State) (p : Pair) :
    occList (processFile fi st).1 p = occList st.1 p ++ fileOccs fi p := by
  cases fi with
  | ok f =>
      cases h : required_columns.all (fun c => f.columns.contains c) with
      | true =>
          rw [processFile_ok_true f st h, fileOccs_ok_true f p h, occList_processEvents]
      | false =>
          rw [processFile_ok_false f st h, fileOccs_ok_false f p h]
          simp
  | missingFile q => simp [processFile, fileOccs]
  | emptyFile q => simp [processFile, fileOccs]
  | parseErr q => simp [processFile, fileOccs]
  | readExc q m => simp [processFile, fileOccs]

lemma occList_processFiles (p : Pair) :
    ∀ (fis : List FileInput) (st : State),
      occList (processFiles fis st).1 p = occList st.1 p ++ totalOccs fis p := by
  intro fis
  induction fis with
  | nil => intro st; simp [processFiles, totalOccs]
  | cons fi rest ih =>
      intro st
      simp [processFiles, totalOccs, ih, occList_processFile, List.append_assoc]

lemma occList_runIndex (fis : List FileInput) (p : Pair) :
    occList (runIndex fis) p = totalOccs fis p := by
  simpa [runIndex, occList] using occList_processFiles p fis ([], [])

lemma eventsOccs_length (path : String) (p : Pair) :
    ∀ (evs : List RowEvent) (i : Nat),
      (eventsOccs path i evs p).length = eventsValidCount evs p := by
  intro evs
  induction evs with
  | nil => intro i; simp [eventsOccs, eventsValidCount]
  | cons ev rest ih =>
      intro i
      cases ev with
      | row r =>
          by_cases h : rowKeyPair r = some p
          · simp [eventsOccs, eventsValidCount, h, ih, Nat.add_comm]
          · simp [eventsOccs, eventsValidCount, h, ih]
      | raiseExc m => simp [eventsOccs, eventsValidCount]

lemma fileOccs_length (fi : FileInput) (p : Pair) :
    (fileOccs fi p).length = fileValidCount fi p := by
  cases fi with
  | ok f =>
      cases h : required_columns.all (fun c => f.columns.contains c) with
      | true =>
          rw [fileOccs_ok_true f p h, fileValidCount_ok_true f p h, eventsOccs_length]
      | false =>
          rw [fileOccs_ok_false f p h, fileValidCount_ok_false f p h]
          rfl
  | missingFile q => simp [fileOccs, fileValidCount]
  | emptyFile q => simp [fileOccs, fileValidCount]
  | parseErr q => simp [fileOccs, fileValidCount]
  | readExc q m => simp [fileOccs, fileValidCount]

lemma totalOccs_length (fis : List FileInput) (p : Pair) :
    (totalOccs fis p).length = totalValidCount fis p := by
  unfold totalOccs totalValidCount
  rw [List.length_flatten, List.map_map]
  simp [Function.comp_def, fileOccs_length]

lemma keys_appendOcc (idx : Index) (pr : Pair) (o : Occurrence) :
    keys (appendOcc idx pr o) =
      if pr ∈ keys idx then keys idx else keys idx ++ [pr] := by
  induction idx with
  | nil => simp [appendOcc, keys]
  | cons e rest ih =>
      obtain ⟨q, l⟩ := e
      by_cases hq : q = pr
      · simp [appendOcc, keys, hq]
      · have hne : ¬ pr = q := fun h => hq h.symm
        have hstep : appendOcc ((q, l) :: rest) pr o = (q, l) :: appendOcc rest pr o := by
          simp only [appendOcc, hq, if_false]
        rw [hstep]
        by_cases hmem : pr ∈ keys rest
        · have hmem2 : pr ∈ keys ((q, l) :: rest) := by
            simp [keys] at hmem ⊢
            exact Or.inr hmem
          rw [if_pos hmem2]
          simp only [keys, List.map_cons] at ih ⊢
          rw [ih, if_pos (by simpa [keys] using hmem)]
        · have hmem2 : pr ∉ keys ((q, l) :: rest) := by
            simp [keys] at hmem ⊢
            exact ⟨hne, hmem⟩
          rw [if_neg hmem2]
          simp only [keys, List.map_cons] at ih ⊢
          rw [ih, if_neg (by simpa [keys] using hmem)]
          simp

lemma nodup_keys_appendOcc (idx : Index) (pr : Pair) (o : Occurrence)
    (h : (keys idx).Nodup) : (keys (appendOcc idx pr o)).Nodup := by
  rw [keys_appendOcc]
  by_cases hmem : pr ∈ keys idx
  · simpa [hmem] using h
  · simp [hmem, List.nodup_append, h]

lemma entries_nonempty_appendOcc (idx : Index) (pr : Pair) (o : Occurrence)
    (h : ∀ e ∈ idx, e.2 ≠ []) : ∀ e ∈ appendOcc idx pr o, e.2 ≠ [] := by
  induction idx with
  | nil =>
      intro e he
      simp [appendOcc] at he
      simp [he]
  | cons a rest ih =>
      obtain ⟨q, l⟩ := a
      intro e he
      by_cases hq : q = pr
      · simp [appendOcc, hq] at he
        rcases he with he | he
        · simp [he]
        · exact h e (List.mem_cons_of_mem _ he)
      · simp [appendOcc, hq] at he
        rcases he with he | he
        · exact h e (by simp [he])
        · exact ih (fun x hx => h x (List.mem_cons_of_mem _ hx)) e he

lemma processRow_index (path : String) (i : Nat) (r : Row) (st : State) :
    (processRow path i r st).1 = st.1 ∨
      ∃ pr o, (processRow path i r st).1 = appendOcc st.1 pr o := by
  unfold processRow
  by_cases hm : getCell r "#Channel" = Cell.missing ∨ getCell r "#Cue" = Cell.missing
  · rw [if_pos hm]
    exact Or.inl rfl
  · rw [if_neg hm]
    rcases h1 : getCell r "#Channel" with _ | ch | s1 <;>
      rcases h2 : getCell r "#Cue" with _ | cue | s2 <;>
        simp only [h1, h2]
    all_goals try exact Or.inl trivial
    exact Or.inr ⟨(ch, cue), (path, csv_line_number i), rfl⟩

lemma index_invariant_processEvents (P : Index → Prop)
    (hP : ∀ idx pr o, P idx → P (appendOcc idx pr o)) (path : String) :
    ∀ (evs : List RowEvent) (i : Nat) (st : State),
      P st.1 → P (processEvents path i evs st).1 := by
  intro evs
  induction evs with
  | nil => intro i st h; exact h
  | cons ev rest ih =>
      intro i st h
      cases ev with
      | row r =>
          refine ih (i + 1) (processRow path i r st) ?_
          rcases processRow_index path i r st with hc | ⟨pr, o, hc⟩
          · rw [hc]; exact h
          · rw [hc]; exact hP st.1 pr o h
      | raiseExc m => exact h

lemma index_invariant_processFile (P : Index → Prop)
    (hP : ∀ idx pr o, P idx → P (appendOcc idx pr o)) (fi : FileInput) (st : State)
    (h : P st.1) : P (processFile fi st).1 := by
  cases fi with
  | ok f =>
      cases hcol : required_columns.all (fun c => f.columns.contains c) with
      | true =>
          rw [processFile_ok_true f st hcol]
          exact index_invariant_processEvents P hP f.path f.events 0 st h
      | false =>
          rw [processFile_ok_false f st hcol]
          exact h
  | missingFile q => exact h
  | emptyFile q => exact h
  | parseErr q => exact h
  | readExc q m => exact h

lemma index_invariant_processFiles (P : Index → Prop)
    (hP : ∀ idx pr o, P idx → P (appendOcc idx pr o)) :
    ∀ (fis : List FileInput) (st : State), P st.1 → P (processFiles fis st).1 := by
  intro fis
  induction fis with
  | nil => intro st h; exact h
  | cons fi rest ih =>
      intro st h
      exact ih (processFile fi st) (index_invariant_processFile P hP fi st h)

lemma keys_runIndex_nodup (fis : List FileInput) : (keys (runIndex fis)).Nodup := by
  refine index_invariant_processFiles (fun idx => (keys idx).Nodup) ?_ fis ([], []) ?_
  · intro idx pr o h
    exact nodup_keys_appendOcc idx pr o h
  · simp [keys]

lemma runIndex_entries_nonempty (fis : List FileInput) :
    ∀ e ∈ runIndex fis, e.2 ≠ [] := by
  refine index_invariant_processFiles (fun idx => ∀ e ∈ idx, e.2 ≠ []) ?_ fis ([], []) ?_
  · intro idx pr o h
    exact entries_nonempty_appendOcc idx pr o h
  · simp

lemma mem_keys_of_mem (idx : Index) (p : Pair) (l : List Occurrence)
    (h : (p, l) ∈ idx) : p ∈ keys idx :=
  List.mem_map.2 ⟨(p, l), h, rfl⟩

lemma occList_eq_of_mem (idx : Index) (p : Pair) (l : List Occurrence)
    (hnd : (keys idx).Nodup) (hm : (p, l) ∈ idx) : occList idx p = l := by
  induction idx with
  | nil => cases hm
  | cons e rest ih =>
      obtain ⟨q, l2⟩ := e
      rw [keys, List.map_cons, List.nodup_cons] at hnd
      rcases List.mem_cons.1 hm with heq | hmem
      · obtain ⟨h1, h2⟩ := Prod.mk.injEq .. ▸ heq.symm
        simp [occList, h1.symm, h2]
      · have hq : ¬ q = p := by
          intro h
          exact hnd.1 (h ▸ mem_keys_of_mem rest p l hmem)
        simp only [occList, hq, if_false]
        exact ih hnd.2 hmem

lemma mem_of_occList_ne (idx : Index) (p : Pair) (h : occList idx p ≠ []) :
    (p, occList idx p) ∈ idx := by
  induction idx with
  | nil => simp [occList] at h
  | cons e rest ih =>
      obtain ⟨q, l⟩ := e
      by_cases hq : q = p
      · simp [occList, hq]
      · simp only [occList, hq, if_false] at h ⊢
        exact List.mem_cons_of_mem _ (ih h)

lemma mem_duplicateReport_iff (idx : Index) (e : DupEntry) :
    e ∈ duplicateReport idx ↔
      ∃ a ∈ idx, a.2.length > 1 ∧
        e = ⟨a.1.1, a.1.2, a.2.length, a.2.map (fun o => (o.1, displayedLine o.2))⟩ := by
  constructor
  · intro h
    obtain ⟨a, ha, hae⟩ := List.mem_map.1 h
    obtain ⟨ham, hagt⟩ := List.mem_filter.1 ha
    exact ⟨a, ham, by simpa using hagt, hae.symm⟩
  · intro ⟨a, ham, hagt, hae⟩
    refine List.mem_map.2 ⟨a, List.mem_filter.2 ⟨ham, by simpa using hagt⟩, hae.symm⟩

lemma occList_length_runIndex (fis : List FileInput) (p : Pair) :
    (occList (runIndex fis) p).length = totalValidCount fis p := by
  rw [occList_runIndex, totalOccs_length]

lemma report_mem_iff (fis : List FileInput) (p : Pair) :
    (∃ e ∈ duplicateReport (runIndex fis), e.channel = p.1 ∧ e.cue = p.2) ↔
      2 ≤ totalValidCount fis p := by
  constructor
  · intro ⟨e, he, hch, hcu⟩
    obtain ⟨a, ham, hagt, hae⟩ := (mem_duplicateReport_iff (runIndex fis) e).1 he
    have hap : a.1 = p := by
      have h1 : a.1.1 = p.1 := by rw [← hch, hae]
      have h2 : a.1.2 = p.2 := by rw [← hcu, hae]
      exact Prod.ext h1 h2
    have hocc : occList (runIndex fis) p = a.2 := by
      rw [← hap]
      exact occList_eq_of_mem (runIndex fis) a.1 a.2 (keys_runIndex_nodup fis)
        (by rw [← Prod.mk.eta (p := a)] at ham; exact ham)
    rw [← occList_length_runIndex fis p, hocc]
    omega
  · intro h2
    have hlen : (occList (runIndex fis) p).length = totalValidCount fis p :=
      occList_length_runIndex fis p
    have hne : occList (runIndex fis) p ≠ [] := by
      intro hnil
      rw [hnil] at hlen
      simp at hlen
      omega
    have hmem := mem_of_occList_ne (runIndex fis) p hne
    have hgt : (occList (runIndex fis) p).length > 1 := by omega
    refine ⟨⟨p.1, p.2, (occList (runIndex fis) p).length,
      (occList (runIndex fis) p).map (fun o => (o.1, displayedLine o.2))⟩, ?_, rfl, rfl⟩
    exact (mem_duplicateReport_iff (runIndex fis) _).2
      ⟨(p, occList (runIndex fis) p), hmem, by simpa using hgt, rfl⟩

lemma report_count_eq (fis : List FileInput) (p : Pair) (e : DupEntry)
    (he : e ∈ duplicateReport (runIndex fis)) (hch : e.channel = p.1) (hcu : e.cue = p.2) :
    e.totalOccurrences = totalValidCount fis p ∧ e.locations.length = totalValidCount fis p := by
  obtain ⟨a, ham, hagt, hae⟩ := (mem_duplicateReport_iff (runIndex fis) e).1 he
  have hap : a.1 = p := by
    have h1 : a.1.1 = p.1 := by rw [← hch, hae]
    have h2 : a.1.2 = p.2 := by rw [← hcu, hae]
    exact Prod.ext h1 h2
  have hocc : occList (runIndex fis) p = a.2 := by
    rw [← hap]
    exact occList_eq_of_mem (runIndex fis) a.1 a.2 (keys_runIndex_nodup fis)
      (by rw [← Prod.mk.eta (p := a)] at ham; exact ham)
  have hlen : a.2.length = totalValidCount fis p := by
    rw [← hocc, occList_length_runIndex]
  constructor
  · rw [hae]
    exact hlen
  · rw [hae]
    simpa using hlen

lemma duplicates_found_iff (idx : Index) :
    duplicates_found idx = true ↔ duplicateReport idx ≠ [] := by
  rw [duplicates_found, List.any_eq_true]
  constructor
  · intro ⟨a, ham, hgt⟩ hnil
    have hrep : (⟨a.1.1, a.1.2, a.2.length,
        a.2.map (fun o => (o.1, displayedLine o.2))⟩ : DupEntry) ∈ duplicateReport idx :=
      (mem_duplicateReport_iff idx _).2 ⟨a, ham, of_decide_eq_true hgt, rfl⟩
    rw [hnil] at hrep
    cases hrep
  · intro hne
    rcases hd : duplicateReport idx with _ | ⟨e, rest⟩
    · exact absurd hd hne
    · have he : e ∈ duplicateReport idx := by rw [hd]; exact List.mem_cons_self e rest
      obtain ⟨a, ham, hagt, hae⟩ := (mem_duplicateReport_iff idx e).1 he
      exact ⟨a, ham, by simpa using hagt⟩

lemma eventsOccs_mem_shape (path : String) (p : Pair) :
    ∀ (evs : List RowEvent) (i : Nat) (o : Occurrence),
      o ∈ eventsOccs path i evs p → ∃ j, o = (path, csv_line_number j) := by
  intro evs
  induction evs with
  | nil => intro i o h; simp [eventsOccs] at h
  | cons ev rest ih =>
      intro i o h
      cases ev with
      | row r =>
          rw [eventsOccs] at h
          rcases List.mem_append.1 h with h | h
          · by_cases hp : rowKeyPair r = some p
            · simp [hp] at h
              exact ⟨i, h⟩
            · simp [hp] at h
          · exact ih (i + 1) o h
      | raiseExc m => simp [eventsOccs] at h

lemma processEvents_rows_then_raise (path : String) (msg : String) (more : List RowEvent) :
    ∀ (pre : List Row) (i : Nat) (st : State),
      processEvents path i (pre.map RowEvent.row ++ RowEvent.raiseExc msg :: more) st
        = ((processEvents path i (pre.map RowEvent.row) st).1,
           (processEvents path i (pre.map RowEvent.row) st).2
             ++ [Msg.unexpectedErr path msg]) := by
  intro pre
  induction pre with
  | nil => intro i st; rfl
  | cons r rest ih =>
      intro i st
      simp only [List.map_cons, List.cons_append, processEvents]
      exact ih (i + 1) (processRow path i r st)

/-- C1: a (channel, cue) pair appears in the duplicate report iff it has
two or more recorded occurrences — i.e. iff it occurs at least twice
across all inputs, counting only rows with non-missing,
integer-convertible key values — and its report block carries exactly that
count and exactly that many (file, line) locations; the stored occurrence
list is exactly the list of the valid source rows, so a pair with a single
occurrence is never reported. -/
theorem duplicate_report_exact (fis : List FileInput) (p : Pair) :
    ((∃ e ∈ duplicateReport (runIndex fis), e.channel = p.1 ∧ e.cue = p.2) ↔
      2 ≤ totalValidCount fis p)
    ∧ (∀ e ∈ duplicateReport (runIndex fis), e.channel = p.1 → e.cue = p.2 →
        e.totalOccurrences = totalValidCount fis p ∧
          e.locations.length = totalValidCount fis p)
    ∧ occList (runIndex fis) p = totalOccs fis p := by
  refine ⟨report_mem_iff fis p, ?_, occList_runIndex fis p⟩
  intro e he hch hcu
  exact report_count_eq fis p e he hch hcu

/-- Witness for C1: in file A the pair (1, 1) occurs twice; it is listed
in the duplicate report and its count equals the number of its valid
source rows. -/
theorem duplicate_report_exact_witness :
    (∃ e ∈ duplicateReport (runIndex [FileInput.ok fileA]), e.channel = 1 ∧ e.cue = 1)
    ∧ (⟨1, 1, 2, [("A.csv", 4), ("A.csv", 6)]⟩ : DupEntry).totalOccurrences
        = totalValidCount [FileInput.ok fileA] ((1 : Int), (1 : Int)) := by
  constructor
  · exact (duplicate_report_exact [FileInput.ok fileA] (1, 1)).1.mpr (by decide)
  · exact ((duplicate_report_exact [FileInput.ok fileA] (1, 1)).2.1
      ⟨1, 1, 2, [("A.csv", 4), ("A.csv", 6)]⟩ (by decide) rfl rfl).1

/-- C2: the stored line number for the data row with 0-based index idx is
idx + 3, the line printed in the report is the stored value plus one,
which is idx + 4, the real physical 1-based line of that row (data rows
start at physical line 4 for idx = 0); and every occurrence a data region
contributes carries the stored line number of its originating row index. -/
theorem stored_and_displayed_lines :
    (∀ idx : Nat,
      csv_line_number idx = idx + 3
      ∧ displayedLine (csv_line_number idx) = csv_line_number idx + 1
      ∧ displayedLine (csv_line_number idx) = idx + 4
      ∧ displayedLine (csv_line_number idx) = physicalLine idx)
    ∧ ∀ (path : String) (evs : List RowEvent) (p : Pair) (o : Occurrence),
        o ∈ eventsOccs path 0 evs p →
          ∃ idx, o = (path, csv_line_number idx)
            ∧ displayedLine o.2 = physicalLine idx := by
  constructor
  · intro idx
    refine ⟨rfl, rfl, ?_, ?_⟩
    · simp [displayedLine, csv_line_number]
    · simp [displayedLine, csv_line_number, physicalLine]
  · intro path evs p o ho
    obtain ⟨j, hj⟩ := eventsOccs_mem_shape path p evs 0 o ho
    refine ⟨j, hj, ?_⟩
    rw [hj]
    simp [displayedLine, csv_line_number, physicalLine]

/-- Witness for C2: the occurrence of (1, 1) stored for the first data row
of file A carries stored line 3 and is displayed at physical line 4. -/
theorem stored_and_displayed_lines_witness :
    ∃ idx, (("A.csv", 3) : Occurrence) = ("A.csv", csv_line_number idx)
      ∧ displayedLine (("A.csv", 3) : Occurrence).2 = physicalLine idx := by
  exact stored_and_displayed_lines.2 "A.csv" fileA.events (1, 1) ("A.csv", 3) (by decide)

/-- C3 counterexample: for file A, whose (1,1) rows sit at physical lines
4 and 6, the report block for (1, 1) has 2 occurrences with displayed
lines 4 and 6 — not 5 and 7 as the claim states. -/
theorem scenario_displayed_lines_counterexample :
    duplicateReport (runIndex [FileInput.ok fileA])
      = [⟨1, 1, 2, [("A.csv", 4), ("A.csv", 6)]⟩]
    ∧ (duplicateReport (runIndex [FileInput.ok fileA])).map
        (fun e => e.locations.map (fun l => l.2)) ≠ [[5, 7]] := by
  constructor
  · rfl
  · decide

/-- C3 amended: the report shows the pair (1, 1) with 2 occurrences whose
displayed line numbers are 4 and 6, each equal to the physical line of the
corresponding row. -/
theorem scenario_displayed_lines_amended :
    duplicateReport (runIndex [FileInput.ok fileA])
      = [⟨1, 1, 2, [("A.csv", displayedLine (csv_line_number 0)),
                    ("A.csv", displayedLine (csv_line_number 2))]⟩]
    ∧ displayedLine (csv_line_number 0) = physicalLine 0
    ∧ displayedLine (csv_line_number 2) = physicalLine 2
    ∧ physicalLine 0 = 4 ∧ physicalLine 2 = 6 := by
  refine ⟨rfl, rfl, rfl, rfl, rfl⟩

/-- C4: exactly one of the two mutually exclusive closing messages is
printed: the success message iff zero duplicate pairs exist (in which case
no DUPLICATE PAIR FOUND block appears in the report), the completion
message iff at least one exists. -/
theorem closing_message_exclusive (fis : List FileInput) :
    (closingMessage (runIndex fis) = successMessage ↔
      duplicateReport (runIndex fis) = [])
    ∧ (closingMessage (runIndex fis) = completedMessage ↔
      duplicateReport (runIndex fis) ≠ [])
    ∧ successMessage ≠ completedMessage := by
  have hd := duplicates_found_iff (runIndex fis)
  have hne : successMessage ≠ completedMessage := by decide
  by_cases h : duplicates_found (runIndex fis) = true
  · have hrep : duplicateReport (runIndex fis) ≠ [] := hd.1 h
    rw [closingMessage, if_pos h]
    exact ⟨⟨fun hx => absurd hx.symm hne, fun hx => absurd hx hrep⟩,
      ⟨fun _ => hrep, fun _ => rfl⟩, hne⟩
  · have hrep : duplicateReport (runIndex fis) = [] := by
      by_contra hx
      exact h (hd.2 hx)
    rw [closingMessage, if_neg h]
    exact ⟨⟨fun _ => hrep, fun _ => rfl⟩,
      ⟨fun hx => absurd hx hne, fun hx => absurd hrep hx⟩, hne⟩

/-- Witness for C4: with no input files the multimap is empty and the
success message is the closing line. -/
theorem closing_message_exclusive_witness :
    closingMessage (runIndex ([] : List FileInput)) = successMessage := by
  exact (closing_message_exclusive []).1.mpr (by decide)

/-- C5 (code bug): a row whose key value fails integer conversion is
skipped with a warning and adds no occurrence, and a row with a missing
key value is skipped silently with no occurrence — but the warning cites
the stored value idx + 3 (here 3), which is one less than the physical
1-based line of the row (here 4), although the banner printed by the
program states that line numbers refer to the absolute line in the file
starting from 1, and the duplicate report adds one to stored lines before
display. -/
theorem bad_row_warning_cites_stored_line :
    runMsgs [FileInput.ok fileBad] = [Msg.warnBadRow 3 "bad.csv"]
    ∧ runIndex [FileInput.ok fileBad] = []
    ∧ physicalLine 0 = 4
    ∧ (3 : Nat) ≠ physicalLine 0
    ∧ runMsgs [FileInput.ok fileMissingKey] = []
    ∧ runIndex [FileInput.ok fileMissingKey] = [] := by
  decide

/-- C6: every per-file failure (missing file, empty file, parse error, or
any other unexpected read error) appends exactly its diagnostic, leaves
the multimap untouched, and processing continues with the remaining files;
the single fatal condition is an empty argument list, rejected with a
usage message, while every non-empty argument list is accepted. -/
theorem per_file_failures_recoverable (fi : FileInput) (m : Msg)
    (rest : List FileInput) (st : State) (h : fileDiag fi = some m) :
    processFiles (fi :: rest) st = processFiles rest (st.1, st.2 ++ [m])
    ∧ parseArgs [] = Except.error usageMessage
    ∧ (∀ a as, parseArgs (a :: as) = Except.ok (a :: as)) := by
  refine ⟨?_, rfl, fun a as => rfl⟩
  cases fi with
  | missingFile p =>
      have hm : m = Msg.errFileNotFound p := by simpa [fileDiag] using h.symm
      subst hm
      rfl
  | emptyFile p =>
      have hm : m = Msg.warnEmptyFile p := by simpa [fileDiag] using h.symm
      subst hm
      rfl
  | parseErr p =>
      have hm : m = Msg.errParse p := by simpa [fileDiag] using h.symm
      subst hm
      rfl
  | readExc p s =>
      have hm : m = Msg.unexpectedErr p s := by simpa [fileDiag] using h.symm
      subst hm
      rfl
  | ok f => simp [fileDiag] at h

/-- Witness for C6: a missing input path yields exactly its diagnostic and
an unchanged multimap. -/
theorem per_file_failures_recoverable_witness :
    processFiles [FileInput.missingFile "x"] (([], []) : State)
      = processFiles [] (([] : Index), ([] : List Msg) ++ [Msg.errFileNotFound "x"]) := by
  exact (per_file_failures_recoverable (FileInput.missingFile "x")
    (Msg.errFileNotFound "x") [] ([], []) rfl).1

/-- C7: a parsed file whose header lacks either required column, by exact
case-sensitive name, is skipped whole with a diagnostic naming the file:
the multimap is unchanged, so no row of the file contributes any
occurrence. -/
theorem missing_columns_skip_file (f : DataFile) (st : State)
    (h : "#Channel" ∉ f.columns ∨ "#Cue" ∉ f.columns) :
    processFile (FileInput.ok f) st = (st.1, st.2 ++ [Msg.warnMissingColumns f.path]) := by
  have hall : required_columns.all (fun c => f.columns.contains c) = false := by
    cases hb : required_columns.all (fun c => f.columns.contains c) with
    | false => rfl
    | true =>
        exfalso
        have hboth := List.all_eq_true.1 hb
        rcases h with h | h
        · exact h (by simpa using hboth "#Channel" (by simp [required_columns]))
        · exact h (by simpa using hboth "#Cue" (by simp [required_columns]))
  exact processFile_ok_false f st hall

/-- Witness for C7: a file whose header has #channel in lowercase instead
of #Channel is skipped whole with the missing-columns warning. -/
theorem missing_columns_skip_file_witness :
    processFile (FileInput.ok ⟨"c.csv", ["#channel", "#Cue"], [RowEvent.row (rowCC 1 1)]⟩)
        (([], []) : State)
      = ([], [Msg.warnMissingColumns "c.csv"]) := by
  exact missing_columns_skip_file ⟨"c.csv", ["#channel", "#Cue"], [RowEvent.row (rowCC 1 1)]⟩
    ([], []) (Or.inl (by decide))

/-- C8: permuting the order of the input files changes neither the set of
key pairs reported as duplicates nor any occurrence count of a pair. -/
theorem order_independence (fis fis2 : List FileInput) (h : fis.Perm fis2) (p : Pair) :
    totalValidCount fis p = totalValidCount fis2 p
    ∧ ((∃ e ∈ duplicateReport (runIndex fis), e.channel = p.1 ∧ e.cue = p.2) ↔
       (∃ e ∈ duplicateReport (runIndex fis2), e.channel = p.1 ∧ e.cue = p.2))
    ∧ (occList (runIndex fis) p).length = (occList (runIndex fis2) p).length := by
  have hcount : totalValidCount fis p = totalValidCount fis2 p := by
    unfold totalValidCount
    exact (h.map (fun fi => fileValidCount fi p)).sum_eq
  refine ⟨hcount, ?_, ?_⟩
  · rw [report_mem_iff fis p, report_mem_iff fis2 p, hcount]
  · rw [occList_length_runIndex, occList_length_runIndex, hcount]

/-- Witness for C8: swapping file A with a missing file leaves the
occurrence count of (1, 1) unchanged. -/
theorem order_independence_witness :
    totalValidCount [FileInput.ok fileA, FileInput.missingFile "x"] ((1 : Int), (1 : Int))
      = totalValidCount [FileInput.missingFile "x", FileInput.ok fileA] ((1 : Int), (1 : Int)) := by
  exact (order_independence [FileInput.ok fileA, FileInput.missingFile "x"]
    [FileInput.missingFile "x", FileInput.ok fileA]
    (List.Perm.swap (FileInput.missingFile "x") (FileInput.ok fileA) []) (1, 1)).1

/-- C9: skipping a file on an unexpected mid-file error is not atomic with
respect to the multimap: the resulting state is exactly the state after
processing only the rows before the error, plus the unexpected-error
diagnostic — occurrences already appended from those rows remain and are
counted; only the remainder of the file is abandoned. -/
theorem midfile_error_keeps_appended (path : String) (cols : List String)
    (pre : List Row) (msg : String) (more : List RowEvent) (st : State)
    (h : required_columns.all (fun c => cols.contains c) = true) :
    processFile (FileInput.ok ⟨path, cols, pre.map RowEvent.row ++ RowEvent.raiseExc msg :: more⟩) st
      = ((processFile (FileInput.ok ⟨path, cols, pre.map RowEvent.row⟩) st).1,
         (processFile (FileInput.ok ⟨path, cols, pre.map RowEvent.row⟩) st).2
           ++ [Msg.unexpectedErr path msg]) := by
  rw [processFile_ok_true ⟨path, cols, pre.map RowEvent.row ++ RowEvent.raiseExc msg :: more⟩ st h,
    processFile_ok_true ⟨path, cols, pre.map RowEvent.row⟩ st h]
  exact processEvents_rows_then_raise path msg more pre 0 st

/-- Witness for C9: a file with one valid row followed by an unexpected
error keeps the occurrence of that row in the multimap and logs the error. -/
theorem midfile_error_keeps_appended_witness :
    processFile (FileInput.ok ⟨"w.csv", ["#Channel", "#Cue"],
        [rowCC 9 9].map RowEvent.row ++ RowEvent.raiseExc "boom" :: []⟩) (([], []) : State)
      = ((processFile (FileInput.ok ⟨"w.csv", ["#Channel", "#Cue"],
            [rowCC 9 9].map RowEvent.row⟩) (([], []) : State)).1,
         (processFile (FileInput.ok ⟨"w.csv", ["#Channel", "#Cue"],
            [rowCC 9 9].map RowEvent.row⟩) (([], []) : State)).2
           ++ [Msg.unexpectedErr "w.csv" "boom"]) := by
  exact midfile_error_keeps_appended "w.csv" ["#Channel", "#Cue"] [rowCC 9 9] "boom" []
    ([], []) (by decide)

/-- C10: from any state whose multimap entries are all non-empty — in
particular at every point of a run started from the empty state — every
entry of the multimap keeps a non-empty occurrence list (an entry is
created only when its first occurrence is appended), and every count
printed in the duplicate report is at least 2. -/
theorem index_entries_nonempty_inv (fis : List FileInput) (st : State)
    (h : ∀ e ∈ st.1, e.2 ≠ []) :
    (∀ e ∈ (processFiles fis st).1, e.2 ≠ [])
    ∧ (∀ d ∈ duplicateReport (processFiles fis st).1, 2 ≤ d.totalOccurrences) := by
  constructor
  · exact index_invariant_processFiles (fun idx => ∀ e ∈ idx, e.2 ≠ [])
      (fun idx pr o hh => entries_nonempty_appendOcc idx pr o hh) fis st h
  · intro d hd
    obtain ⟨a, ham, hagt, hae⟩ := (mem_duplicateReport_iff _ d).1 hd
    rw [hae]
    simp only []
    omega

/-- Witness for C10: after processing file A, the stored entry for (1, 1)
has a non-empty occurrence list. -/
theorem index_entries_nonempty_witness :
    (((((1 : Int), (1 : Int)), [("A.csv", 3), ("A.csv", 5)]) : Pair × List Occurrence)).2 ≠ [] := by
  exact (index_entries_nonempty_inv [FileInput.ok fileA] ([], []) (by simp)).1
    (((1, 1), [("A.csv", 3), ("A.csv", 5)])) (by decide)

end DupeChecker
